import Mathlib

/-!
Verification of the task-execution orchestrator in `claude-agent-runner.mjs`.

The development shallowly embeds the orchestrator's state and control flow:
the task sequencer loop (`main`, lines 271-600), the file-observation hooks
(`sdkOptions.hooks`, lines 174-250), the per-task message-stream reduction
(lines 323-465), the signed progress notifications (`sendProgressUpdate`,
lines 46-122), the build / publication tail of `main` (lines 661-1126), and
the `git status --porcelain` filename extraction (lines 884-901).

External boundaries (the agent SDK message stream, subprocess exit
codes/stdout/stderr, and the HMAC primitive from `node:crypto`) are modelled
as explicit inputs, so every run of the embedded code is a pure function of
those inputs.
-/

namespace AgentRunner

/-! ### String helpers mirroring the JavaScript primitives used by the script -/

/-- Whitespace as recognised by JavaScript `String.prototype.trim` (the
characters that occur in this repository's inputs). -/
def jsWhitespaceChar (c : Char) : Bool :=
  c = ' ' || c = '\t' || c = '\n' || c = '\r'

/-- Drop whitespace from both ends of a character list. -/
def trimChars (l : List Char) : List Char :=
  ((l.dropWhile jsWhitespaceChar).reverse.dropWhile jsWhitespaceChar).reverse

/-- Model of JavaScript `s.trim()`. -/
def jsTrim (s : String) : String :=
  String.mk (trimChars s.data)

/-- Model of JavaScript `s.substring(0, n)`. -/
def strTake (s : String) (n : Nat) : String :=
  String.mk (s.data.take n)

/-- Does `needle` occur as a contiguous segment of `hay`?  Helper for the
model of JavaScript `String.prototype.includes`. -/
def hasSeg (needle : List Char) : List Char → Bool
  | [] => needle.isEmpty
  | c :: cs => needle.isPrefixOf (c :: cs) || hasSeg needle cs

/-- Model of JavaScript `hay.includes(needle)`. -/
def strContains (hay needle : String) : Bool :=
  hasSeg needle.data hay.data

/-! ### Tasks and the sequencer loop (`main`, lines 271-600)

The agent invocation for one task (the `query(...)` call plus the message
iteration) is abstracted as a function from the invocation index and the task
to an `Except`: `.ok r` when the drive produced a success result `r`, and
`.error e` when it threw.  The loop body re-raises any task failure after
sending the error notification (line 542), so the loop aborts at the first
failing task. -/

/-- Task record as embedded in the script (`{id, description}`). -/
structure Task where
  id : String
  description : String
deriving DecidableEq, Repr

/-- Observable outcome of one run of the `for (const task of tasks)` loop:
which invocation indices were started (in chronological order), the
accumulated `completedTaskIds`, and whether the loop exited normally or
re-raised a task failure. -/
structure SeqResult where
  attempted : List Nat
  completedTaskIds : List String
  outcome : Except String Unit
deriving Repr

/-- The task loop of `main` (lines 271-590), starting at invocation index
`i`: each task's agent drive is invoked in list order; on success the task id
is appended to `completedTaskIds`; on failure the error is re-raised
immediately and no further task is attempted. -/
def runSeqFrom (agent : Nat → Task → Except String String) :
    Nat → List Task → SeqResult
  | _, [] => ⟨[], [], .ok ()⟩
  | i, t :: ts =>
    match agent i t with
    | .ok _ =>
      let r := runSeqFrom agent (i + 1) ts
      ⟨i :: r.attempted, t.id :: r.completedTaskIds, r.outcome⟩
    | .error e => ⟨[i], [], .error e⟩

/-- The full task loop, started at index 0. -/
def runSequencer (agent : Nat → Task → Except String String)
    (tasks : List Task) : SeqResult :=
  runSeqFrom agent 0 tasks

/-- Post-loop guard (lines 592-600): `if (completedTaskIds.length !==
tasks.length) throw new Error('Cannot build: Only X of Y tasks completed')`. -/
def afterLoopGuard (completedTaskIds : List String) (tasks : List Task) :
    Except String Unit :=
  if completedTaskIds.length ≠ tasks.length then
    .error ("Cannot build: Only " ++ toString completedTaskIds.length ++
      " of " ++ toString tasks.length ++ " tasks completed")
  else .ok ()

/-! ### File-observation hooks (`sdkOptions.hooks`, lines 192-250)

Both the `PreToolUse` hook (lines 196-203) and the `PostToolUse` hook (lines
219-234) run, for `Write`/`Edit` tools, the same recording step:

    const filePath = input.tool_input?.file_path || input.tool_input?.filePath;
    if (filePath && !filesChanged.includes(filePath)) filesChanged.push(filePath);

JavaScript `||` and the `if (filePath ...)` guard treat the empty string (and
a missing field) as falsy, which the embedding reproduces. -/

/-- Which hook fired.  Recording is identical in both, so the kind does not
influence `recordFile`; it is kept to state mixed pre/post scenarios. -/
inductive HookEventKind where
  | pre
  | post
deriving DecidableEq, Repr

/-- The two historically-used field-name variants of the tool input. -/
structure ToolInput where
  file_path : Option String
  filePath : Option String
deriving DecidableEq, Repr

/-- One hook observation at the agent boundary. -/
structure ToolObservation where
  event : HookEventKind
  toolName : String
  toolInput : ToolInput
deriving DecidableEq, Repr

/-- Model of `input.tool_input?.file_path || input.tool_input?.filePath`
followed by the truthiness test `if (filePath ...)`: the first *truthy*
(present and nonempty) candidate, if any. -/
def extractFilePath (ti : ToolInput) : Option String :=
  let v := match ti.file_path with
    | some s => if s = "" then ti.filePath else some s
    | none => ti.filePath
  match v with
  | some s => if s = "" then none else some s
  | none => none

/-- One hook invocation's effect on the `filesChanged` list (lines 196-203
and 219-234): record the extracted path for `Write`/`Edit` unless already
present; all other tools leave the list unchanged. -/
def recordFile (filesChanged : List String) (obs : ToolObservation) :
    List String :=
  if obs.toolName = "Write" ∨ obs.toolName = "Edit" then
    match extractFilePath obs.toolInput with
    | some p => if p ∈ filesChanged then filesChanged else filesChanged ++ [p]
    | none => filesChanged
  else filesChanged

/-- The `filesChanged` list produced by a run's sequence of hook
observations, starting from the empty list initialised at line 137. -/
def processObs (obss : List ToolObservation) : List String :=
  obss.foldl recordFile []

/-! ### Message-stream reduction for one task (lines 323-465)

The stream consumed by `for await (const message of queryResult)` is modelled
as a list of items: either a yielded message or an iteration-level fault
(a rejection raised by the iterator itself).  `breakFault` models a fault
thrown by the stream's cleanup when the loop exits via `break` after a
success result.  Whether the `catch (iteratorError)` block (lines 439-458)
suppresses that fault is decided by JavaScript truthiness: `if (finalResult)`
at line 442 and `if (!finalResult)` at line 462 treat the empty string as
falsy, exactly like a missing result. -/

/-- Typed messages of the agent stream as classified by the loop body. -/
inductive SdkMessage where
  | result (subtype : String) (value : String)
  | errMsg (details : String)
  | assistant (content : String)
  | toolUse (details : String)
  | toolResult (details : String)
  | other (type : String)
deriving DecidableEq, Repr

/-- One step of the awaited iteration: a yielded message, or a fault raised
by the iterator at that point. -/
inductive StreamItem where
  | msg (m : SdkMessage)
  | fault (f : String)
deriving DecidableEq, Repr

/-- Failures a single task drive can raise (lines 375-377, 393-408, 456,
464). -/
inductive TaskFailure where
  | execFailed (subtype : String)
  | sdkError (details : String)
  | iterFault (f : String)
  | noResult
deriving DecidableEq, Repr

/-- The `for await` loop (lines 334-438): returns the captured `finalResult`
(`some v` exactly when a `result`/`success` message caused the `break` at
line 373, `none` when the stream ended without one), or the error thrown out
of the loop.  A failure `result` subtype throws (line 377), an `error`
message throws (line 408), and an iteration fault with no captured result is
re-raised by the catch block (line 456). -/
def driveLoop : List StreamItem → Except TaskFailure (Option String)
  | [] => .ok none
  | .fault f :: _ => .error (.iterFault f)
  | .msg (.result st v) :: _ =>
    if st = "success" then .ok (some v) else .error (.execFailed st)
  | .msg (.errMsg d) :: _ => .error (.sdkError d)
  | .msg (.assistant _) :: rest => driveLoop rest
  | .msg (.toolUse _) :: rest => driveLoop rest
  | .msg (.toolResult _) :: rest => driveLoop rest
  | .msg (.other _) :: rest => driveLoop rest

/-- A whole single-task drive (lines 323-465): run the loop; when the loop
captured a *truthy* (nonempty) success value, a cleanup fault raised while
breaking out of the iteration is caught and suppressed by the
`if (finalResult)` check (lines 442-448) and the success value stands.  A
captured empty string is falsy: a cleanup fault is then re-raised by the
catch block (line 456), and otherwise the `if (!finalResult)` guard throws
`No result received from agent` (lines 462-464) — the same fate as a stream
that ended with no result at all, where no `break` (and hence no cleanup
fault) occurs. -/
def driveTask (items : List StreamItem) (breakFault : Option String) :
    Except TaskFailure String :=
  match driveLoop items with
  | .ok (some v) =>
    if v ≠ "" then .ok v
    else
      match breakFault with
      | some f => .error (.iterFault f)
      | none => .error .noResult
  | .ok none => .error .noResult
  | .error e => .error e

/-- Stream items that the loop body merely logs (neither a `result` message,
nor an `error` message, nor an iteration fault). -/
def nonTerminal : StreamItem → Bool
  | .msg (.result _ _) => false
  | .msg (.errMsg _) => false
  | .fault _ => false
  | _ => true

/-! ### Signed progress notifications (`sendProgressUpdate`, lines 46-122)

The payload literal (lines 48-57) has a fixed field order; `JSON.stringify`
serialises own fields in insertion order and omits fields whose value is
`undefined` (the optional `buildStatus` and `error` arguments).  The HMAC is
computed over `JSON.stringify(payload)` (line 71), and the transmitted body
is `JSON.stringify({...payload, signature})` (lines 99-102), i.e. the same
fields in the same order with `signature` appended last.  The HMAC-SHA256
primitive itself comes from `node:crypto`, outside this repository, so it is
kept abstract as a function `mac : secret → message → digest`. -/

/-- The notification payload, fields in the order of the object literal at
lines 48-57. -/
structure ProgressPayload where
  projectId : String
  status : String
  currentTask : String
  completedTasks : List String
  filesChanged : List String
  buildStatus : Option String
  error : Option String
  timestamp : String
deriving DecidableEq, Repr

/-- JSON escaping of a single character (the cases relevant here). -/
def jsonEscapeChar (c : Char) : String :=
  if c = '"' then "\\\""
  else if c = '\\' then "\\\\"
  else if c = '\n' then "\\n"
  else if c = '\t' then "\\t"
  else if c = '\r' then "\\r"
  else String.mk [c]

/-- JSON serialisation of a string value. -/
def jsonString (s : String) : String :=
  "\"" ++ String.join (s.data.map jsonEscapeChar) ++ "\""

/-- JSON serialisation of an array of strings. -/
def jsonArray (l : List String) : String :=
  "[" ++ String.intercalate "," (l.map jsonString) ++ "]"

/-- The comma-separated field list of `JSON.stringify(payload)`: fields in
insertion order, `undefined` optionals omitted. -/
def serializeFields (p : ProgressPayload) : String :=
  "\"projectId\":" ++ jsonString p.projectId ++
  ",\"status\":" ++ jsonString p.status ++
  ",\"currentTask\":" ++ jsonString p.currentTask ++
  ",\"completedTasks\":" ++ jsonArray p.completedTasks ++
  ",\"filesChanged\":" ++ jsonArray p.filesChanged ++
  (match p.buildStatus with
   | none => ""
   | some b => ",\"buildStatus\":" ++ jsonString b) ++
  (match p.error with
   | none => ""
   | some e => ",\"error\":" ++ jsonString e) ++
  ",\"timestamp\":" ++ jsonString p.timestamp

/-- Model of `JSON.stringify(payload)` (line 71): the bytes that get
signed — the signature field is not part of them. -/
def serializePayload (p : ProgressPayload) : String :=
  "\x7b" ++ serializeFields p ++ "\x7d"

/-- The transmitted envelope: the payload plus its computed signature. -/
structure SignedEnvelope where
  payload : ProgressPayload
  signature : String
deriving DecidableEq, Repr

/-- Lines 70-72: `createHmac('sha256', webhookSecret).update(
JSON.stringify(payload)).digest('hex')`, with the `node:crypto` primitive
abstracted as `mac`. -/
def signPayload (mac : String → String → String) (secret : String)
    (p : ProgressPayload) : SignedEnvelope :=
  ⟨p, mac secret (serializePayload p)⟩

/-- Model of the transmitted body `JSON.stringify({...payload, signature})`
(lines 99-102): the payload's fields in unchanged order with the
`signature` field appended last. -/
def serializeEnvelope (e : SignedEnvelope) : String :=
  "\x7b" ++ serializeFields e.payload ++
  ",\"signature\":" ++ jsonString e.signature ++ "\x7d"

/-- Receiver-side verification: recompute the MAC over the serialisation of
the envelope minus its `signature` field and compare. -/
def verifySignature (mac : String → String → String) (secret : String)
    (e : SignedEnvelope) : Bool :=
  e.signature == mac secret (serializePayload e.payload)

/-- Payload construction performed by `sendProgressUpdate(status,
currentTask, completedTasks, filesChanged, buildStatus, error)` (lines
46-57); `projectId` and the wall-clock `timestamp` come from the
environment. -/
def sendProgressUpdate (projectId timestamp status currentTask : String)
    (completedTasks filesChanged : List String)
    (buildStatus err : Option String) : ProgressPayload :=
  ⟨projectId, status, currentTask, completedTasks, filesChanged,
    buildStatus, err, timestamp⟩

/-- The `SessionEnd` hook (lines 183-191): sends a `completed` notification
whose `completedTasks` is `tasks.map(t => t.id)` — every configured task id —
with `buildStatus: 'success'`, reading only `tasks` and `filesChanged`; the
sequencer-level `completedTaskIds` is not consulted. -/
def sessionEndHook (projectId timestamp : String) (tasks : List Task)
    (completedTaskIds filesChanged : List String) : ProgressPayload :=
  sendProgressUpdate projectId timestamp "completed" "All tasks completed"
    (tasks.map Task.id) filesChanged (some "success") none

/-! ### Build step and publication stage (lines 661-1126)

Subprocess results are explicit inputs.  `promisify(exec)` resolves only on
a zero exit code and rejects otherwise, so `execAsync('npm run build')`
throwing is modelled by `exitCode ≠ 0`; the additional stderr check at lines
687-690 runs only after a zero-exit resolution.  Each git command's outcome
is an input field of `GitWorld`; commands whose failures the script swallows
locally (temp-file cleanup, `.gitignore` maintenance, staged-file
verification, commit verification, branch checkout) do not influence the
modelled control flow and are omitted. -/

/-- Outcome of the `npm run build` subprocess. -/
structure BuildResult where
  exitCode : Nat
  stdout : String
  stderr : String
deriving DecidableEq, Repr

/-- The build step (lines 670-690): a non-zero exit rejects the `execAsync`
promise (caught by the `buildError` handler and re-raised); on a zero exit,
a nonempty stderr containing neither `'warning'` nor `'WARN'` throws
`Build failed` (lines 687-690). -/
def buildOutcome (r : BuildResult) : Except String Unit :=
  if r.exitCode ≠ 0 then .error "Command failed: npm run build"
  else if r.stderr ≠ "" ∧ strContains r.stderr "warning" = false ∧
      strContains r.stderr "WARN" = false then
    .error ("Build failed: " ++ r.stderr)
  else .ok ()

/-- The spec's claimed characterisation of a build failure — non-zero exit
with non-warning stderr — written from the spec's words, for comparison with
`buildOutcome`. -/
def claimedBuildFailure (r : BuildResult) : Bool :=
  decide (r.exitCode ≠ 0) &&
    !(strContains r.stderr "warning" || strContains r.stderr "WARN")

/-- Outcomes of the git commands the publication stage runs, as inputs:
`.ok stdout` when the command exits zero, `.error stderr` when the awaited
promise rejects. -/
structure GitWorld where
  revParse : Except String String
  gitInit : Except String String
  configName : Except String String
  configEmail : Except String String
  remoteGetUrl : Except String String
  remoteSetUrl : Except String String
  remoteAdd : Except String String
  status1 : Except String String
  addAll : Except String String
  commit : Except String String
  branchShow : Except String String
  pushCurrent : Except String String
  pushMain : Except String String
deriving Repr

/-- Lines 702-714: `git rev-parse --git-dir`, falling back to `git init`
inside the catch; a failing `git init` propagates. -/
def ensureRepo (w : GitWorld) : Except String Unit :=
  match w.revParse with
  | .ok _ => .ok ()
  | .error _ => do let _ ← w.gitInit; pure ()

/-- Lines 727-753: resolve the remote, then `set-url` if it existed and
`add` otherwise. -/
def resolveRemote (w : GitWorld) : Except String Unit :=
  match w.remoteGetUrl with
  | .ok _ => do let _ ← w.remoteSetUrl; pure ()
  | .error _ => do let _ ← w.remoteAdd; pure ()

/-- Lines 958-989: `git branch --show-current`, defaulting to `main` when
empty or failing; the `checkout -b main` attempts have their errors
swallowed, so branch resolution never throws. -/
def resolveBranch (w : GitWorld) : String :=
  match w.branchShow with
  | .ok out => if jsTrim out = "" then "main" else jsTrim out
  | .error _ => "main"

/-- The body of the publication `try` block (lines 700-1053): any `.error`
is the exception arriving at the `catch (gitError)` handler.  The commit
block (lines 773-952) runs only when `git status --porcelain` reported
changes; the push (lines 995-1030) retries once against `main` when the
current branch differs, then throws `Git push failed` (line 1052) if no
attempt succeeded. -/
def gitPublishCore (w : GitWorld) : Except String Unit := do
  ensureRepo w
  let _ ← w.configName
  let _ ← w.configEmail
  resolveRemote w
  let st ← w.status1
  if jsTrim st ≠ "" then
    let _ ← w.addAll
    let _ ← w.commit
  let branch := resolveBranch w
  match w.pushCurrent with
  | .ok _ => pure ()
  | .error e1 =>
    if branch ≠ "main" then
      match w.pushMain with
      | .ok _ => pure ()
      | .error e2 =>
        throw ("Git push failed. Stdout: , Stderr: " ++ strTake e2 500)
    else
      throw ("Git push failed. Stdout: , Stderr: " ++ strTake e1 500)

/-- Lines 1048-1105: on publication success, the pushed notification; on any
exception from the publication block, the `catch (gitError)` handler's
notification — still `completed` with `buildStatus: 'success'` (line 1104) —
and no re-raise. -/
def publicationStage (projectId timestamp : String)
    (completedTaskIds filesChanged : List String) (w : GitWorld) :
    ProgressPayload :=
  match gitPublishCore w with
  | .ok _ =>
    sendProgressUpdate projectId timestamp "completed"
      "Code committed and pushed to GitHub" completedTaskIds filesChanged
      (some "success") none
  | .error _ =>
    sendProgressUpdate projectId timestamp "completed"
      "Build successful (Git push failed)" completedTaskIds filesChanged
      (some "success") none

/-- Observable result of the post-loop tail of `main`. -/
structure TailResult where
  notifications : List ProgressPayload
  outcome : Except String Unit
  publicationRan : Bool
deriving Repr

/-- The tail of `main` after the completion guard (lines 661-1126): the
pre-build notification (line 661, `filesChanged` passed as the literal
`[]`), the build step, the build-success notification (line 693, again a
literal `[]`), and — only when both GitHub credentials are present — the
publication stage.  A build failure is re-raised (line 1125) before the
publication block is ever reached; a publication failure is caught and the
run still ends normally. -/
def runTail (projectId timestamp : String)
    (completedTaskIds filesChanged : List String) (git : Option GitWorld)
    (build : BuildResult) : TailResult :=
  let n1 := sendProgressUpdate projectId timestamp "running"
    "Running build command..." completedTaskIds [] (some "building") none
  match buildOutcome build with
  | .error e => ⟨[n1], .error e, false⟩
  | .ok _ =>
    let n2 := sendProgressUpdate projectId timestamp "completed"
      "Build successful" completedTaskIds [] (some "success") none
    match git with
    | none => ⟨[n1, n2], .ok (), false⟩
    | some w =>
      let n3 := sendProgressUpdate projectId timestamp "running"
        "Committing code to GitHub..." completedTaskIds filesChanged
        none none
      ⟨[n1, n2, n3,
        publicationStage projectId timestamp completedTaskIds filesChanged w],
        .ok (), true⟩

/-! ### Filename extraction from `git status --porcelain` (lines 884-901)

The script strips the status prefix with `trimmed.match(/^.{1,2}s+(.+)$/)`
and falls back to `trimmed.split(/s+/)` — both with a literal `s`, not the
whitespace class `\s`.  The regex is embedded operationally: try the greedy
`.{1,2}` with two characters first, then with one; the literal `s+` consumes
the maximal run of `'s'` characters that still leaves at least one character
for the greedy `(.+)$`. -/

/-- Length of the leading run of `'s'` characters. -/
def leadingSCount : List Char → Nat
  | 's' :: rest => leadingSCount rest + 1
  | _ => 0

/-- One attempt of `/^.{1,2}s+(.+)$/` with `.{1,2}` fixed to `k`
characters: drop `k` characters, require a nonempty run of `'s'`, and
capture the (necessarily nonempty) remainder after the run, backing the run
off by one when the run would otherwise swallow the whole rest. -/
def matchStatusLine (k : Nat) (s : List Char) : Option (List Char) :=
  if s.length < k then none
  else
    let t := s.drop k
    let r := leadingSCount t
    if r = 0 then none
    else
      let j := min r (t.length - 1)
      if j = 0 then none else some (t.drop j)

/-- The capture of `trimmed.match(/^.{1,2}s+(.+)$/)`: the greedy `.{1,2}`
tries two characters, then backtracks to one. -/
def regexCapture (s : List Char) : Option (List Char) :=
  match matchStatusLine 2 s with
  | some c => some c
  | none => matchStatusLine 1 s

/-- Model of `trimmed.split(/s+/)`: split on maximal runs of the literal
character `'s'`, keeping empty boundary segments as JavaScript does. -/
def splitS : List Char → List (List Char)
  | [] => [[]]
  | c :: rest =>
    if c = 's' then
      match rest with
      | 's' :: _ => splitS rest
      | _ => [] :: splitS rest
    else
      match splitS rest with
      | seg :: segs => (c :: seg) :: segs
      | [] => [[c]]

/-- JavaScript `Array.prototype.join(' ')`. -/
def joinWithSpace : List String → String
  | [] => ""
  | [s] => s
  | s :: rest => s ++ " " ++ joinWithSpace rest

/-- The per-line filename extraction at lines 884-901: trim the line, try
the (defective) prefix-stripping regex, fall back to splitting on the same
literal pattern and joining the tail, and finally fall back to the whole
trimmed line. -/
def extractFromLine (line : String) : String :=
  let trimmed := jsTrim line
  match regexCapture trimmed.data with
  | some cap => jsTrim (String.mk cap)
  | none =>
    let parts := splitS trimmed.data
    if parts.length > 1 then
      jsTrim (joinWithSpace (parts.map String.mk).tail)
    else trimmed

/-! ### Concrete instances used to evaluate the theorems on closed inputs -/

/-- First embedded task of the script (line 12-15). -/
def taskA : Task := ⟨"TASK-002", "Build task card component"⟩

/-- Second embedded task of the script (line 16-19). -/
def taskB : Task := ⟨"TASK-004", "Implement quick-add task input"⟩

/-- Third embedded task of the script (line 20-23). -/
def taskC : Task := ⟨"TASK-010", "Implement filter panel"⟩

/-- Agent behaviour whose second invocation (index 1) throws. -/
def agentFailB : Nat → Task → Except String String :=
  fun i _ =>
    if i = 1 then .error "Task execution failed: error_during_execution"
    else .ok "done"

/-- Agent behaviour that succeeds on every invocation. -/
def agentAllOk : Nat → Task → Except String String := fun _ _ => .ok "done"

/-- A `PreToolUse` observation of `src/App.tsx` under `file_path`. -/
def obsPreWrite : ToolObservation := ⟨.pre, "Write", ⟨some "src/App.tsx", none⟩⟩

/-- A `PostToolUse` observation of the same path under `filePath`. -/
def obsPostEdit : ToolObservation := ⟨.post, "Edit", ⟨none, some "src/App.tsx"⟩⟩

/-- A `Write` observation whose `file_path` is the empty string — falsy in
JavaScript, so the hook records nothing. -/
def obsEmptyPath : ToolObservation := ⟨.pre, "Write", ⟨some "", none⟩⟩

/-- A git world in which everything works until the push, which is denied on
the current branch (`main`, so no fallback attempt applies). -/
def wPushDenied : GitWorld :=
  ⟨.ok ".git", .ok "", .ok "", .ok "", .ok "origin-url", .ok "", .ok "",
    .ok " M src/App.tsx", .ok "", .ok "committed", .ok "main",
    .error "remote: denied", .error "remote: denied"⟩

/-! ### Helper lemmas -/

theorem runSeqFrom_cons_ok {agent : Nat → Task → Except String String}
    {i : Nat} {t : Task} {ts : List Task} {r : String}
    (h : agent i t = .ok r) :
    runSeqFrom agent i (t :: ts) =
      ⟨i :: (runSeqFrom agent (i + 1) ts).attempted,
        t.id :: (runSeqFrom agent (i + 1) ts).completedTaskIds,
        (runSeqFrom agent (i + 1) ts).outcome⟩ := by
  simp [runSeqFrom, h]

theorem runSeqFrom_cons_error {agent : Nat → Task → Except String String}
    {i : Nat} {t : Task} {ts : List Task} {e : String}
    (h : agent i t = .error e) :
    runSeqFrom agent i (t :: ts) = ⟨[i], [], .error e⟩ := by
  simp [runSeqFrom, h]

theorem runSeqFrom_append (agent : Nat → Task → Except String String)
    (pre : List Task) :
    ∀ (i : Nat) (t : Task) (post : List Task) (e : String),
      (∀ j (hj : j < pre.length), (agent (i + j) (pre.get ⟨j, hj⟩)).isOk = true) →
      agent (i + pre.length) t = .error e →
      runSeqFrom agent i (pre ++ t :: post) =
        ⟨List.range' i (pre.length + 1), pre.map Task.id, .error e⟩ := by
  induction pre with
  | nil =>
    intro i t post e _ h2
    simp only [List.length_nil, Nat.add_zero] at h2
    rw [List.nil_append, runSeqFrom_cons_error h2]
    simp [List.range'_succ]
  | cons a pre ih =>
    intro i t post e h1 h2
    have ha : (agent i a).isOk = true := by
      simpa using h1 0 (by simp)
    cases hag : agent i a with
    | error err => rw [hag] at ha; simp [Except.isOk, Except.toBool] at ha
    | ok r =>
      have hrec := ih (i + 1) t post e
        (fun j hj => by
          have hj1 : j + 1 < (a :: pre).length := by
            simpa using Nat.succ_lt_succ hj
          have := h1 (j + 1) hj1
          rw [List.get_cons_succ] at this
          have harith : i + (j + 1) = i + 1 + j := by omega
          rwa [harith] at this)
        (by
          have harith : i + (a :: pre).length = i + 1 + pre.length := by
            simp [List.length_cons]; omega
          rwa [harith] at h2)
      rw [List.cons_append, runSeqFrom_cons_ok hag, hrec]
      simp [List.range'_succ, List.length_cons]

theorem runSeqFrom_completed_of_ok (agent : Nat → Task → Except String String) :
    ∀ (tasks : List Task) (i : Nat),
      (runSeqFrom agent i tasks).outcome = .ok () →
      (runSeqFrom agent i tasks).completedTaskIds = tasks.map Task.id := by
  intro tasks
  induction tasks with
  | nil => intro i _; rfl
  | cons t ts ih =>
    intro i h
    cases hag : agent i t with
    | error e => rw [runSeqFrom_cons_error hag] at h; simp at h
    | ok r =>
      rw [runSeqFrom_cons_ok hag] at h ⊢
      dsimp only at h ⊢
      rw [List.map_cons, ih (i + 1) h]

theorem mem_recordFile {files : List String} {obs : ToolObservation}
    {p : String} :
    p ∈ recordFile files obs ↔
      p ∈ files ∨ ((obs.toolName = "Write" ∨ obs.toolName = "Edit") ∧
        extractFilePath obs.toolInput = some p) := by
  unfold recordFile
  split
  case isTrue hw =>
    cases hx : extractFilePath obs.toolInput with
    | none => simp
    | some q =>
      dsimp only
      by_cases hq : q ∈ files
      · rw [if_pos hq]
        constructor
        · exact fun hpf => Or.inl hpf
        · rintro (hpf | ⟨-, hqp⟩)
          · exact hpf
          · exact (Option.some.inj hqp) ▸ hq
      · rw [if_neg hq, List.mem_append, List.mem_singleton]
        constructor
        · rintro (hpf | hpq)
          · exact Or.inl hpf
          · subst hpq; exact Or.inr ⟨hw, rfl⟩
        · rintro (hpf | ⟨-, hqp⟩)
          · exact Or.inl hpf
          · exact Or.inr (Option.some.inj hqp).symm
  case isFalse hw => simp [hw]

theorem nodup_recordFile {files : List String} {obs : ToolObservation}
    (h : files.Nodup) : (recordFile files obs).Nodup := by
  unfold recordFile
  split
  case isTrue hw =>
    cases hx : extractFilePath obs.toolInput with
    | none => exact h
    | some q =>
      dsimp only
      by_cases hq : q ∈ files
      · simpa [hq] using h
      · simp only [hq, if_false]
        rw [List.nodup_append]
        exact ⟨h, List.nodup_singleton q,
          fun a ha hb => hq ((List.mem_singleton.mp hb) ▸ ha)⟩
  case isFalse hw => exact h

theorem mem_foldl_recordFile (obss : List ToolObservation) :
    ∀ (files : List String) (p : String),
      p ∈ obss.foldl recordFile files ↔
        p ∈ files ∨ ∃ obs ∈ obss,
          (obs.toolName = "Write" ∨ obs.toolName = "Edit") ∧
            extractFilePath obs.toolInput = some p := by
  induction obss with
  | nil => intro files p; simp
  | cons obs obss ih =>
    intro files p
    rw [List.foldl_cons, ih, mem_recordFile]
    constructor
    · rintro ((hf | hrec) | ⟨o, ho, hp⟩)
      · exact Or.inl hf
      · exact Or.inr ⟨obs, List.mem_cons_self obs obss, hrec⟩
      · exact Or.inr ⟨o, List.mem_cons_of_mem obs ho, hp⟩
    · rintro (hf | ⟨o, ho, hp⟩)
      · exact Or.inl (Or.inl hf)
      · rcases List.mem_cons.mp ho with rfl | ho2
        · exact Or.inl (Or.inr hp)
        · exact Or.inr ⟨o, ho2, hp⟩

theorem nodup_foldl_recordFile (obss : List ToolObservation) :
    ∀ (files : List String), files.Nodup → (obss.foldl recordFile files).Nodup := by
  induction obss with
  | nil => intro files h; exact h
  | cons obs obss ih =>
    intro files h
    rw [List.foldl_cons]
    exact ih (recordFile files obs) (nodup_recordFile h)

theorem driveLoop_append_nonTerminal (pre l : List StreamItem)
    (h : pre.all nonTerminal = true) :
    driveLoop (pre ++ l) = driveLoop l := by
  induction pre with
  | nil => rfl
  | cons x pre ih =>
    rw [List.all_cons, Bool.and_eq_true] at h
    obtain ⟨hx, hpre⟩ := h
    cases x with
    | fault f => simp [nonTerminal] at hx
    | msg m =>
      cases m with
      | result st v => simp [nonTerminal] at hx
      | errMsg d => simp [nonTerminal] at hx
      | assistant c => simpa [driveLoop] using ih hpre
      | toolUse c => simpa [driveLoop] using ih hpre
      | toolResult c => simpa [driveLoop] using ih hpre
      | other c => simpa [driveLoop] using ih hpre

/-! ### Claim theorems -/

/-- C1: for every ordered task list, the sequencer invokes the agent for the
tasks strictly in list order, and when the agent invocation for the task at
position `pre.length` fails after every earlier invocation succeeded, the
failure is re-raised immediately: `completedTaskIds` is exactly the IDs of
the tasks before the failed one, the invocations started are exactly the
initial segment `0, …, pre.length` in order (so no later task's invocation
is ever started), and the run's outcome is that failure. -/
theorem claim1_sequencer_abort_on_failure
    (agent : Nat → Task → Except String String) (pre : List Task) (t : Task)
    (post : List Task) (e : String)
    (h1 : ∀ j (hj : j < pre.length), (agent j (pre.get ⟨j, hj⟩)).isOk = true)
    (h2 : agent pre.length t = .error e) :
    runSequencer agent (pre ++ t :: post) =
      ⟨List.range (pre.length + 1), pre.map Task.id, .error e⟩ := by
  unfold runSequencer
  rw [List.range_eq_range']
  exact runSeqFrom_append agent pre 0 t post e
    (fun j hj => by simpa using h1 j hj) (by simpa using h2)

/-- Witness for C1: the `[A, B, C]` scenario with B's invocation failing —
`completedTaskIds` is exactly `["TASK-002"]`, only invocations 0 and 1 are
started (C is never attempted), and the B failure is the run outcome. -/
theorem claim1_witness :
    runSequencer agentFailB ([taskA] ++ taskB :: [taskC]) =
      ⟨List.range ([taskA].length + 1), [taskA].map Task.id,
        .error "Task execution failed: error_during_execution"⟩ :=
  claim1_sequencer_abort_on_failure agentFailB [taskA] taskB [taskC]
    "Task execution failed: error_during_execution" (by decide) rfl

/-- C2 counterexample: a single `Write` observation whose `file_path` field
holds the empty-string path is a hook observation of that path, yet
`filesChanged` afterwards contains no entry equal to it (JavaScript
truthiness discards the empty string), so it does not contain exactly one
such entry as the claim states for every path. -/
theorem claim2_counterexample :
    obsEmptyPath.event = .pre ∧ obsEmptyPath.toolName = "Write" ∧
    obsEmptyPath.toolInput.file_path = some "" ∧
    processObs [obsEmptyPath] = [] ∧
    ¬ List.count "" (processObs [obsEmptyPath]) = 1 :=
  ⟨rfl, rfl, rfl, rfl, by decide⟩

/-- C2 (amended): for every run and every *nonempty* file path, after any
number N ≥ 1 of hook observations of that path — any mix of pre/post events,
the path supplied under either the `file_path` or the `filePath` field name —
`filesChanged` contains exactly one entry equal to that path. -/
theorem claim2_at_most_one_record (obss : List ToolObservation) (p : String)
    (hp : p ≠ "")
    (hobs : ∃ obs ∈ obss,
      (obs.toolName = "Write" ∨ obs.toolName = "Edit") ∧
        (obs.toolInput.file_path = some p ∨
          ((obs.toolInput.file_path = none ∨ obs.toolInput.file_path = some "") ∧
            obs.toolInput.filePath = some p))) :
    List.count p (processObs obss) = 1 := by
  obtain ⟨obs, hmem, hwe, hfield⟩ := hobs
  have hex : extractFilePath obs.toolInput = some p := by
    rcases hfield with h | ⟨hfp, hvp⟩
    · unfold extractFilePath; rw [h]; simp [hp]
    · unfold extractFilePath
      rcases hfp with h0 | h0 <;> rw [h0] <;> simp [hvp, hp]
  have hm : p ∈ processObs obss :=
    (mem_foldl_recordFile obss [] p).mpr (Or.inr ⟨obs, hmem, hwe, hex⟩)
  exact List.count_eq_one_of_mem
    (nodup_foldl_recordFile obss [] (List.nodup_nil)) hm

/-- Witness for C2 (amended): three observations of `src/App.tsx` — a
pre-event under `file_path`, a post-event under `filePath`, and a repeat —
leave exactly one entry for the path. -/
theorem claim2_witness :
    List.count "src/App.tsx"
      (processObs [obsPreWrite, obsPostEdit, obsPreWrite]) = 1 :=
  claim2_at_most_one_record [obsPreWrite, obsPostEdit, obsPreWrite]
    "src/App.tsx" (by decide)
    ⟨obsPreWrite, by simp, Or.inl rfl, Or.inl rfl⟩

/-- C3 counterexample: a stream that yields a `result`/`success` message
whose payload is the empty string, after which the iteration raises a
cleanup fault.  The claim says the fault is suppressed and the outcome
equals the captured success value with no error raised — but the empty
string is falsy in JavaScript, so `if (finalResult)` at line 442 fails and
the fault is re-raised; and even with no fault, `if (!finalResult)` at line
462 throws `No result received from agent` despite the captured success. -/
theorem claim3_counterexample :
    driveTask [.msg (.result "success" "")] (some "cleanup") =
      .error (.iterFault "cleanup") ∧
    driveTask [.msg (.result "success" "")] (some "cleanup") ≠ .ok "" ∧
    driveTask [.msg (.result "success" "")] none = .error .noResult :=
  ⟨rfl, fun h => Except.noConfusion h, rfl⟩

/-- C3 (amended): for a single-task agent drive whose stream first yields
only non-terminal (logged-only) messages: if a `result` message with subtype
`success` arrives carrying a *truthy* (nonempty) payload, the captured
success value is the task's outcome regardless of anything the stream would
do afterwards — including an iteration fault raised while breaking out
(`breakFault`) or further stream items — and no error is raised; whereas an
iteration fault arriving before any success result propagates as the task's
failure. -/
theorem claim3_post_stream_fault_tolerance (pre post rest : List StreamItem)
    (v f : String) (bf : Option String)
    (hpre : pre.all nonTerminal = true) (hv : v ≠ "") :
    driveTask (pre ++ .msg (.result "success" v) :: post) bf = .ok v ∧
    driveTask (pre ++ .fault f :: rest) bf = .error (.iterFault f) := by
  constructor
  · unfold driveTask
    rw [driveLoop_append_nonTerminal pre _ hpre]
    have : driveLoop (.msg (.result "success" v) :: post) = .ok (some v) := by
      simp [driveLoop]
    rw [this]
    dsimp only
    rw [if_pos hv]
  · unfold driveTask
    rw [driveLoop_append_nonTerminal pre _ hpre]
    rfl

/-- Witness for C3 (amended): after an assistant message and a captured
nonempty success value, a stream fault and a cleanup fault are both
suppressed and the success value stands; the same fault with no prior
success propagates. -/
theorem claim3_witness :
    driveTask [.msg (.assistant "working"),
        .msg (.result "success" "task done"),
        .fault "process exited with code 1"]
      (some "process exited with code 1") = .ok "task done" ∧
    driveTask [.msg (.assistant "working"),
        .fault "stream crashed"]
      (some "process exited with code 1") =
        .error (.iterFault "stream crashed") :=
  claim3_post_stream_fault_tolerance [.msg (.assistant "working")]
    [.fault "process exited with code 1"] [] "task done" "stream crashed"
    (some "process exited with code 1") (by decide) (by decide)

/-- C4: for every abstract MAC (standing for the hex HMAC-SHA256 of
`node:crypto`), secret and payload, the transmitted `signature` equals the
MAC of the JSON serialisation of the payload — which excludes the signature
field, since the envelope adds `signature` as a separate final field; being
a function of secret and payload alone, the signature is deterministic, and
the receiver verifies it by recomputing the MAC over the received envelope
minus its signature field (the envelope's serialisation is exactly the
payload's fields with `",signature":…` spliced in before the closing brace,
so those bytes are recoverable). -/
theorem claim4_signature_scheme (mac : String → String → String)
    (secret : String) (p : ProgressPayload) :
    (signPayload mac secret p).signature = mac secret (serializePayload p) ∧
    verifySignature mac secret (signPayload mac secret p) = true ∧
    serializeEnvelope (signPayload mac secret p) =
      "\x7b" ++ serializeFields p ++ ",\"signature\":" ++
        jsonString (mac secret (serializePayload p)) ++ "\x7d" ∧
    serializePayload (signPayload mac secret p).payload = serializePayload p := by
  refine ⟨rfl, ?_, rfl, rfl⟩
  simp [verifySignature, signPayload]

/-- C5: whenever the `SessionEnd` hook fires it reports status `completed`,
buildStatus `success`, and `completedTasks` equal to every configured task's
ID — and the notification is the same whatever the sequencer-level
`completedTaskIds` happens to be. -/
theorem claim5_session_end_reports_all (pid ts : String) (tasks : List Task)
    (completed files : List String) :
    (sessionEndHook pid ts tasks completed files).status = "completed" ∧
    (sessionEndHook pid ts tasks completed files).buildStatus = some "success" ∧
    (sessionEndHook pid ts tasks completed files).completedTasks =
      tasks.map Task.id ∧
    ∀ completed2 : List String,
      sessionEndHook pid ts tasks completed files =
        sessionEndHook pid ts tasks completed2 files :=
  ⟨rfl, rfl, rfl, fun _ => rfl⟩

/-- C6: when the build succeeded, any failure thrown inside the publication
block (repository initialisation, configuration, remote setup, commit, or
push failing with no successful fallback) is caught by the `gitError`
handler: the run's outcome is still success, and the notifications end with
a `completed` notification carrying `buildStatus: 'success'`. -/
theorem claim6_publication_failure_nonfatal (pid ts : String)
    (completed files : List String) (w : GitWorld) (build : BuildResult)
    (e : String) (hb : buildOutcome build = .ok ())
    (hg : gitPublishCore w = .error e) :
    (runTail pid ts completed files (some w) build).outcome = .ok () ∧
    (runTail pid ts completed files (some w) build).notifications =
      [sendProgressUpdate pid ts "running" "Running build command..."
        completed [] (some "building") none,
       sendProgressUpdate pid ts "completed" "Build successful"
        completed [] (some "success") none,
       sendProgressUpdate pid ts "running" "Committing code to GitHub..."
        completed files none none,
       sendProgressUpdate pid ts "completed" "Build successful (Git push failed)"
        completed files (some "success") none] := by
  unfold runTail publicationStage
  rw [hb]
  dsimp only
  rw [hg]
  exact ⟨rfl, rfl⟩

/-- Witness for C6: a run whose push is denied on `main` (no fallback left)
still ends with outcome `ok` and a final `completed`/`success`
notification. -/
theorem claim6_witness :
    (runTail "p1" "t1" ["TASK-002"] ["src/App.tsx"] (some wPushDenied)
      ⟨0, "built", ""⟩).outcome = .ok () ∧
    (runTail "p1" "t1" ["TASK-002"] ["src/App.tsx"] (some wPushDenied)
      ⟨0, "built", ""⟩).notifications =
      [sendProgressUpdate "p1" "t1" "running" "Running build command..."
        ["TASK-002"] [] (some "building") none,
       sendProgressUpdate "p1" "t1" "completed" "Build successful"
        ["TASK-002"] [] (some "success") none,
       sendProgressUpdate "p1" "t1" "running" "Committing code to GitHub..."
        ["TASK-002"] ["src/App.tsx"] none none,
       sendProgressUpdate "p1" "t1" "completed" "Build successful (Git push failed)"
        ["TASK-002"] ["src/App.tsx"] (some "success") none] :=
  claim6_publication_failure_nonfatal "p1" "t1" ["TASK-002"] ["src/App.tsx"]
    wPushDenied ⟨0, "built", ""⟩
    "Git push failed. Stdout: , Stderr: remote: denied" rfl rfl

/-- C7 counterexample: a build exiting non-zero with a warning-matching
stderr.  The claim says this is *not* treated as a failure, but the code's
`execAsync` rejects on any non-zero exit, so the run fails before the
stderr-warning check is ever consulted. -/
theorem claim7_counterexample :
    claimedBuildFailure ⟨1, "", "warning: deprecated"⟩ = false ∧
    (buildOutcome ⟨1, "", "warning: deprecated"⟩).isOk = false ∧
    (runTail "p1" "t1" [] [] none ⟨1, "", "warning: deprecated"⟩).outcome =
      .error "Command failed: npm run build" :=
  ⟨by decide, by decide, rfl⟩

/-- C7 (amended): a build failure is raised exactly when the build
subprocess exits non-zero (whatever its stderr), or exits zero with a
nonempty stderr containing neither `'warning'` nor `'WARN'`; and whenever a
build failure is raised, the publication stage never executes. -/
theorem claim7_build_failure_characterisation (r : BuildResult)
    (pid ts : String) (completed files : List String)
    (git : Option GitWorld) :
    ((buildOutcome r).isOk = false ↔
      (r.exitCode ≠ 0 ∨ (r.stderr ≠ "" ∧
        strContains r.stderr "warning" = false ∧
        strContains r.stderr "WARN" = false))) ∧
    ((buildOutcome r).isOk = false →
      (runTail pid ts completed files git r).publicationRan = false) := by
  constructor
  · unfold buildOutcome
    split
    case isTrue h => simp [Except.isOk, Except.toBool, h]
    case isFalse h =>
      split
      case isTrue h2 => simp [Except.isOk, Except.toBool, h, h2]
      case isFalse h2 => simp [Except.isOk, Except.toBool, h, h2]
  · intro hfail
    unfold runTail
    cases hb : buildOutcome r with
    | error e => rfl
    | ok u => rw [hb] at hfail; simp [Except.isOk, Except.toBool] at hfail

/-- Witness for C7 (amended): a non-zero exit with empty stderr is a build
failure, and the publication stage does not run. -/
theorem claim7_witness :
    (buildOutcome ⟨1, "", ""⟩).isOk = false ∧
    (runTail "p1" "t1" [] [] none ⟨1, "", ""⟩).publicationRan = false :=
  ⟨by decide,
    (claim7_build_failure_characterisation ⟨1, "", ""⟩ "p1" "t1" [] []
      none).2 (by decide)⟩

/-- C8: whenever the per-task loop exits normally (outcome `ok`),
`completedTaskIds` has exactly one entry per task — its length equals
`tasks.length` — so the post-loop guard's `Cannot build: Only X of Y tasks
completed` branch is not taken. -/
theorem claim8_guard_unreachable
    (agent : Nat → Task → Except String String) (tasks : List Task)
    (h : (runSequencer agent tasks).outcome = .ok ()) :
    (runSequencer agent tasks).completedTaskIds.length = tasks.length ∧
    afterLoopGuard (runSequencer agent tasks).completedTaskIds tasks =
      .ok () := by
  have hc := runSeqFrom_completed_of_ok agent tasks 0 h
  unfold runSequencer at hc ⊢
  rw [hc]
  simp [afterLoopGuard]

/-- Witness for C8: a three-task run whose every invocation succeeds
completes all three tasks and passes the guard. -/
theorem claim8_witness :
    (runSequencer agentAllOk [taskA, taskB, taskC]).completedTaskIds.length =
      [taskA, taskB, taskC].length ∧
    afterLoopGuard (runSequencer agentAllOk [taskA, taskB, taskC]).completedTaskIds
      [taskA, taskB, taskC] = .ok () :=
  claim8_guard_unreachable agentAllOk [taskA, taskB, taskC] rfl

/-- C9: the publication-time filename extraction uses a literal `s+` in its
prefix-stripping regular expression (with a fallback splitting on the same
literal pattern), so on standard porcelain lines it returns something other
than the actual path: `' M src/App.tsx'` yields `'rc/App.tsx'` (the regex
consumes the `s` of `src`) and `'?? newfile.txt'` yields the whole trimmed
line `'?? newfile.txt'` (no `'s'` to split on). -/
theorem claim9_porcelain_extraction_defect :
    extractFromLine " M src/App.tsx" = "rc/App.tsx" ∧
    extractFromLine " M src/App.tsx" ≠ "src/App.tsx" ∧
    extractFromLine "?? newfile.txt" = "?? newfile.txt" ∧
    extractFromLine "?? newfile.txt" ≠ "newfile.txt" :=
  ⟨by decide, by decide, by decide, by decide⟩

/-- C10: the pre-build notification (`Running build command...`, buildStatus
`building`) and the build-success notification (`Build successful`,
buildStatus `success`) always carry an empty `filesChanged` list — the code
passes the literal `[]` — whatever `filesChanged` the run state holds. -/
theorem claim10_build_notifications_empty_files (pid ts : String)
    (completed files : List String) (git : Option GitWorld)
    (build : BuildResult) :
    (runTail pid ts completed files git build).notifications.head? =
      some (sendProgressUpdate pid ts "running" "Running build command..."
        completed [] (some "building") none) ∧
    (buildOutcome build = .ok () →
      ((runTail pid ts completed files git build).notifications.drop 1).head? =
        some (sendProgressUpdate pid ts "completed" "Build successful"
          completed [] (some "success") none)) := by
  constructor
  · unfold runTail
    cases hb : buildOutcome build with
    | error e => rfl
    | ok u => cases git <;> rfl
  · intro hb
    unfold runTail
    rw [hb]
    cases git <;> rfl

/-- Witness for C10: a successful build in a run that recorded two changed
files still reports `Build successful` with an empty `filesChanged`. -/
theorem claim10_witness :
    ((runTail "p1" "t1" ["TASK-002"] ["src/App.tsx", "src/index.ts"] none
      ⟨0, "", ""⟩).notifications.drop 1).head? =
      some (sendProgressUpdate "p1" "t1" "completed" "Build successful"
        ["TASK-002"] [] (some "success") none) :=
  (claim10_build_notifications_empty_files "p1" "t1" ["TASK-002"]
    ["src/App.tsx", "src/index.ts"] none ⟨0, "", ""⟩).2 rfl

end AgentRunner
